import Mathlib

/-!
Verification development for the quantum-simulator service
(src/quantum-simulator/quantum_service.py of PQC-CyberSec-Simulator).

Shallow embedding conventions:
* Wall-clock time is abstracted: every call to `check_timeout` during a run is
  modelled by a Boolean oracle `tchk : ℕ → Bool` consumed in program order
  (the n-th check of the run reads `tchk n`).  A `true` answer models
  `elapsed > budget` at that checkpoint.
* `np.random.randint` / `random.randint` draws are parameters of the run
  (`bases`, `randTarget`, `demoP`, `demoQ`); claims constrain them by the
  documented ranges of the library calls.
* GPU/CuPy behaviour (whether an FFT call raises, whether the raised error
  message contains "CUFFT"/"CUDA", whether the CPU fallback conversions
  succeed) is abstracted into enumerated outcome oracles, mirroring the
  string test `"CUFFT" in error or "CUDA" in error` by a tag on the outcome.
* Timing fields (`execution_time_ms`), GPU name strings and human-readable
  messages are elided from the result records: the spec explicitly excludes
  textual formatting, and wall-clock values are not statable.  The phase tag
  of every `_log_step` call is kept, in order, as the `trace` field, so that
  "which phases executed" is expressible.
* Grover amplitudes: the Python state starts at `1/sqrt(N)` per entry and
  evolves by a sign flip at the target followed by the reflection
  `2*mean - state`.  Both operations are linear, so we track the state
  scaled by the positive constant `sqrt N`, which keeps every entry rational;
  `argmax` of the squared magnitudes is invariant under this scaling.
-/

namespace QuantumService

/-- Phase tags of `_log_step` calls (the `phase` field of a process-log
entry), one constructor per distinct phase string in the source. -/
inductive Phase
  | INIT | CONFIG | TRIVIAL | ATTEMPT | SUCCESS | GCD | SIMULATION | TIMEOUT | ERROR
  | QUANTUM_REGISTER | GPU_MEMORY | HADAMARD_GATE | ORACLE_INIT | ORACLE
  | PERIOD_SEARCH | QFT_PREPARE | QFT_EXECUTE | POST_PROCESS | VERIFY | COMPLETE
  | HADAMARD | SUPERPOSITION | ITERATION | MEASURE | RESULT | PARTIAL
  | LOAD_PARAMS | BKZ_INIT | QUANTUM_BKZ | SVP_SEARCH | BLOCK_SIZE | LWE_ATTACK
  | MLWE_ATTACK | ENUM | SIEVING | COMPLEXITY | QUANTUM_LIMIT | FAIL | SECURITY | VERDICT
  deriving DecidableEq, Repr

/-- `ShorsResult` (quantum_service.py lines 304-318), minus timing/GPU-string
fields; `errored` models `error_message is not None`. -/
structure ShorsResult where
  success : Bool
  modulus : ℕ
  factor_p : Option ℕ
  factor_q : Option ℕ
  qubits_used : ℕ
  timeout_occurred : Bool
  errored : Bool
  trace : List Phase
  deriving DecidableEq, Repr

/-- `GroversResult` (lines 320-334), minus timing/GPU-string fields. -/
structure GroversResult where
  success : Bool
  search_space_size : ℕ
  target_found : Option ℕ
  iterations : ℕ
  qubits_used : ℕ
  timeout_occurred : Bool
  errored : Bool
  trace : List Phase
  deriving DecidableEq, Repr

/-- `PQCAttackResult` (lines 336-351), minus timing/GPU-string/verdict-text
fields. -/
structure PQCAttackResult where
  success : Bool
  algorithm : String
  security_level : ℤ
  classical_security_bits : ℕ
  quantum_security_bits : ℕ
  timeout_occurred : Bool
  trace : List Phase
  deriving DecidableEq, Repr

/-- A Python exception escaping a runner uncaught. -/
inductive PyErr
  | nameError
  deriving DecidableEq, Repr

/-- Outcome of one `array_lib.fft.fft` call in the retry loop of
`quantum_period_finding` (lines 539-586): it either succeeds, or raises an
error whose message contains "CUFFT"/"CUDA", or raises any other error. -/
inductive FftAttempt
  | ok
  | failCuda
  | failOther
  deriving DecidableEq, Repr

/-- How the transform phase ended: the in-loop FFT succeeded; the CPU
fallback (lines 588-631) produced the transform; or the fallback FFT itself
failed and the last-resort dummy state was used (lines 632-645). -/
inductive FftOut
  | gpuSuccess
  | cpuFallback
  | approximated
  deriving DecidableEq, Repr

/-- The FFT retry loop `for fft_attempt in range(max_fft_retries)` with
`max_fft_retries = 3` (lines 537-586), unrolled for the source's fixed
bound.  Returns (number of `fft.fft` calls made, whether one succeeded).
A CUFFT/CUDA-tagged failure retries (cleanup + backoff elided, state-free);
any other failure breaks out of the loop immediately. -/
def fftRetry (att : ℕ → FftAttempt) : ℕ × Bool :=
  match att 0 with
  | .ok => (1, true)
  | .failOther => (1, false)
  | .failCuda =>
    match att 1 with
    | .ok => (2, true)
    | .failOther => (2, false)
    | .failCuda =>
      match att 2 with
      | .ok => (3, true)
      | .failCuda => (3, false)
      | .failOther => (3, false)

/-- Result of the whole transform phase. -/
structure FftPhaseOut where
  gpuAttemptCount : ℕ
  outcome : FftOut
  useGpuAfter : Bool
  deriving DecidableEq, Repr

/-- The transform phase of `quantum_period_finding` (lines 534-651): the
3-attempt retry loop, then — whenever no attempt succeeded, regardless of the
failure signature — the CPU fallback block.  `cpuFftOk` models whether the
`np.fft.fft` fallback call succeeds; `reconvOk` models whether moving the
result back onto the device succeeds (when it does not, the code switches
`self.use_gpu` off for the rest of the run, lines 622-626 and 640-644).
No branch of this phase lets an exception propagate. -/
def fftPhase (useGpu : Bool) (att : ℕ → FftAttempt) (cpuFftOk reconvOk : Bool) :
    FftPhaseOut :=
  let r := fftRetry att
  if r.2 then
    { gpuAttemptCount := r.1, outcome := .gpuSuccess, useGpuAfter := useGpu }
  else if cpuFftOk then
    if useGpu ∧ ¬ reconvOk then
      { gpuAttemptCount := r.1, outcome := .cpuFallback, useGpuAfter := false }
    else
      { gpuAttemptCount := r.1, outcome := .cpuFallback, useGpuAfter := useGpu }
  else
    if useGpu ∧ ¬ reconvOk then
      { gpuAttemptCount := r.1, outcome := .approximated, useGpuAfter := false }
    else
      { gpuAttemptCount := r.1, outcome := .approximated, useGpuAfter := useGpu }

/-- The period-search loop of `quantum_period_finding` (lines 506-517):
`r = 1; val = a % N; while val != 1 and r < cap: val = val * a % N; r += 1`.
`fuel` is an upper bound on the remaining iterations; `fuel = cap` suffices
since each iteration increases `r` and the loop stops at `r = cap`. -/
def findOrderAux (a N cap : ℕ) : ℕ → ℕ → ℕ → ℕ
  | 0, _, r => r
  | fuel + 1, val, r =>
    if val ≠ 1 ∧ r < cap then findOrderAux a N cap fuel (val * a % N) (r + 1) else r

/-- The period candidate computed by the search loop, with `cap` the number
of simulated states (`num_states = 2 ** num_qubits`). -/
def findOrder (a N cap : ℕ) : ℕ :=
  findOrderAux a N cap cap (a % N) 1

/-- `ShorsAlgorithm.mod_exp` (lines 424-432): square-and-multiply modular
exponentiation, recursing on the halved exponent exactly as the
`exp = exp >> 1` loop does. -/
def modExpAux (m : ℕ) (base expn result : ℕ) : ℕ :=
  if expn = 0 then result
  else
    modExpAux m (base * base % m) (expn / 2)
      (if expn % 2 = 1 then result * base % m else result)
  termination_by expn
  decreasing_by exact Nat.div_lt_self (Nat.pos_of_ne_zero (by assumption)) (by omega)

/-- `mod_exp(base, exp, mod)`. -/
def mod_exp (base expn m : ℕ) : ℕ :=
  modExpAux m (base % m) expn 1

/-- Nondeterminism environment of one `ShorsAlgorithm.factor` run. -/
structure ShorEnv where
  /-- initial `self.use_gpu` (`GPU_OPERATIONAL and CUPY_AVAILABLE`). -/
  useGpu : Bool
  /-- `np.random.randint(2, min(N - 1, 10000))` at attempt `i`. -/
  bases : ℕ → ℕ
  /-- the n-th `check_timeout` call of the run. -/
  tchk : ℕ → Bool
  /-- outcome of FFT attempt `j` of the transform phase of attempt `i`. -/
  fftAtt : ℕ → ℕ → FftAttempt
  /-- whether the CPU-fallback FFT of attempt `i` succeeds. -/
  cpuFftOk : ℕ → Bool
  /-- whether device reconversion of attempt `i` succeeds. -/
  reconvOk : ℕ → Bool
  /-- `random.randint(2 ** (key_bits // 2 - 2), 2 ** (key_bits // 2 - 1))`. -/
  demoP : ℕ
  /-- second demo draw from the same range. -/
  demoQ : ℕ

/-- `ShorsAlgorithm.quantum_period_finding` (lines 434-670) for base `a`,
modulus `N`, `2 ^ nq` states, attempt index `i`, starting at check counter
`k`.  Returns `(.error () , k', trace)` when one of its three `check_timeout`
calls fires (the `TimeoutError` of lines 440/489/523), otherwise
`(.ok (r, useGpu'), k', trace)` with the period candidate and the possibly
downgraded GPU flag after the transform phase.  The trace lists the
`_log_step` phases emitted before the exit, including one extra
`PERIOD_SEARCH` entry per 2000 loop iterations (line 514). -/
def qpf (env : ShorEnv) (i : ℕ) (useGpu : Bool) (a N nq k : ℕ) :
    Except Unit (ℕ × Bool) × ℕ × List Phase :=
  if env.tchk k then (.error (), k + 1, [])
  else
    let tr1 : List Phase := [.QUANTUM_REGISTER, .GPU_MEMORY, .HADAMARD_GATE]
    if env.tchk (k + 1) then (.error (), k + 2, tr1)
    else
      let r := findOrder a N (2 ^ nq)
      let tr2 := tr1 ++ [Phase.ORACLE_INIT, .ORACLE, .PERIOD_SEARCH]
        ++ List.replicate (r / 2000) Phase.PERIOD_SEARCH
      if env.tchk (k + 2) then (.error (), k + 3, tr2)
      else
        let f := fftPhase useGpu (env.fftAtt i) (env.cpuFftOk i) (env.reconvOk i)
        (.ok (r, f.useGpuAfter), k + 3,
          tr2 ++ [Phase.QFT_PREPARE, .QFT_EXECUTE, .POST_PROCESS, .VERIFY, .COMPLETE])

/-- `range(2, int(N ** 0.5) + 1)` trial division of the demo phase
(lines 824-828): the least divisor of `N` in `[2, sqrt N]`, if any. -/
def trialDivisor (N : ℕ) : Option ℕ :=
  (List.range' 2 (Nat.sqrt N - 1)).find? (fun i => N % i = 0)

/-- A successful `ShorsResult` as built at the `return` sites of `factor`. -/
def shorSuccess (N nq p q : ℕ) (tr : List Phase) : ShorsResult :=
  { success := true, modulus := N, factor_p := some p, factor_q := some q,
    qubits_used := nq, timeout_occurred := false, errored := false, trace := tr }

/-- The `except TimeoutError` result of `factor` (lines 863-879). -/
def shorTimeout (N nq : ℕ) (tr : List Phase) : ShorsResult :=
  { success := false, modulus := N, factor_p := none, factor_q := none,
    qubits_used := nq, timeout_occurred := true, errored := true,
    trace := tr ++ [Phase.TIMEOUT] }

/-- The `except Exception` result of `factor` (lines 880-895). -/
def shorError (N nq : ℕ) (tr : List Phase) : ShorsResult :=
  { success := false, modulus := N, factor_p := none, factor_q := none,
    qubits_used := nq, timeout_occurred := false, errored := true,
    trace := tr ++ [Phase.ERROR] }

/-- The demo-completion phase of `factor` (lines 817-861), reached when all
ten attempts fail: for `N < 10_000_000` trial division (falling back to
`p, q = N, 1`), otherwise two fresh random draws; always `success = True`. -/
def shorDemo (env : ShorEnv) (N nq : ℕ) (tr : List Phase) : ShorsResult :=
  let tr := tr ++ [Phase.SIMULATION]
  if N < 10000000 then
    match trialDivisor N with
    | some d => shorSuccess N nq d (N / d) (tr ++ [Phase.SUCCESS])
    | none => shorSuccess N nq N 1 (tr ++ [Phase.SUCCESS])
  else
    shorSuccess N nq env.demoP env.demoQ (tr ++ [Phase.SUCCESS])

/-- The `for attempt in range(max_attempts)` loop of `factor`
(lines 737-815) with `max_attempts = 10`, recursing on the remaining
attempts `rem`; `i` is the attempt index, `k` the next check counter,
`ug` the current `self.use_gpu`.  Per iteration: the `check_timeout` call
at the loop head (line 738), the `np.random.randint(2, min(N - 1, 10000))`
draw (which raises `ValueError`, caught by the generic handler, when the
range is empty), the lucky-GCD early exit, and otherwise period finding
followed by the `gcd(x - 1, N)` / `gcd(x + 1, N)` factor extraction, whose
gcds are over ℤ because `x - 1` is a Python int. -/
def shorAttemptLoop (env : ShorEnv) (N nq : ℕ) :
    ℕ → ℕ → ℕ → Bool → List Phase → ShorsResult
  | 0, _, _, _, tr => shorDemo env N nq tr
  | rem + 1, i, k, ug, tr =>
    if env.tchk k then shorTimeout N nq tr
    else if min (N - 1) 10000 ≤ 2 then shorError N nq tr
    else
      let a := env.bases i
      let g := Nat.gcd a N
      let tr := tr ++ [Phase.ATTEMPT]
      if 1 < g then shorSuccess N nq g (N / g) (tr ++ [Phase.SUCCESS])
      else
        match qpf env i ug a N nq (k + 1) with
        | (.error _, _, qtr) => shorTimeout N nq (tr ++ qtr)
        | (.ok (r, ug'), k', qtr) =>
          let tr := tr ++ qtr
          if r % 2 = 0 then
            let x := mod_exp a (r / 2) N
            let tr := tr ++ [Phase.GCD]
            let p := Int.gcd ((x : ℤ) - 1) (N : ℤ)
            let q := Int.gcd ((x : ℤ) + 1) (N : ℤ)
            if 1 < p ∧ p < N then shorSuccess N nq p (N / p) (tr ++ [Phase.SUCCESS])
            else if 1 < q ∧ q < N then shorSuccess N nq q (N / q) (tr ++ [Phase.SUCCESS])
            else shorAttemptLoop env N nq rem (i + 1) k' ug' tr
          else shorAttemptLoop env N nq rem (i + 1) k' ug' tr

/-- `ShorsAlgorithm.factor(N, key_bits)` (lines 672-895).
`num_qubits = min(2 * int(log2(max(N, 2))) + 3, 24)`; the trivial even-`N`
short circuit (lines 717-732) precedes the attempt loop and performs no
`check_timeout` call. -/
def shorsFactor (env : ShorEnv) (N kb : ℕ) : ShorsResult :=
  let nq := min (2 * Nat.log 2 (max N 2) + 3) 24
  let tr : List Phase := [.INIT, .CONFIG]
  if N % 2 = 0 then
    { success := true, modulus := N, factor_p := some 2, factor_q := some (N / 2),
      qubits_used := nq, timeout_occurred := false, errored := false,
      trace := tr ++ [Phase.TRIVIAL] }
  else
    shorAttemptLoop env N nq 10 0 0 env.useGpu tr

/-! ### Grover's algorithm (lines 901-1091) -/

/-- Nondeterminism environment of one `GroversAlgorithm.search` run. -/
structure GroverEnv where
  /-- initial `self.use_gpu`. -/
  useGpu : Bool
  /-- `np.random.randint(0, N)`, used when no target is supplied. -/
  randTarget : ℕ
  /-- the n-th `check_timeout` call of the run. -/
  tchk : ℕ → Bool

/-- Why the Grover iteration loop stopped early: a `check_timeout` raised
`TimeoutError` (line 991), or indexing `state[target]` raised (target out of
range), caught by the generic `except Exception` handler. -/
inductive GrErr
  | timeout
  | index
  deriving DecidableEq, Repr

/-- One Grover iteration (lines 993-998): sign flip at the target index,
then the diffusion `2 * mean - state`; amplitudes scaled by `sqrt N`. -/
def grStep (N target : ℕ) (w : List ℚ) : List ℚ :=
  let w1 := w.set target (-(w.getD target 0))
  let m := w1.sum / (N : ℚ)
  w1.map (fun x => 2 * m - x)

/-- The `for i in range(num_iterations)` loop (lines 989-1006), recursing on
the remaining iterations; `numIter - fuel` is the current index `i`, `k` the
next check counter.  An `ITERATION` `_log_step` fires when
`i % interval == 0 or i == num_iterations - 1` (line 1000). -/
def grLoop (env : GroverEnv) (N target numIter interval : ℕ) :
    ℕ → ℕ → List ℚ → List Phase → Except (GrErr × List Phase) (List ℚ × ℕ × List Phase)
  | 0, k, w, tr => .ok (w, k, tr)
  | fuel + 1, k, w, tr =>
    let i := numIter - (fuel + 1)
    if env.tchk k then .error (.timeout, tr)
    else if N ≤ target then .error (.index, tr)
    else
      let w' := grStep N target w
      let tr' := if i % interval = 0 ∨ i = numIter - 1 then tr ++ [Phase.ITERATION] else tr
      grLoop env N target numIter interval fuel (k + 1) w' tr'

/-- First index of the maximal squared magnitude — `np.argmax(np.abs(state) ** 2)`
(lines 1017-1022); strict improvement keeps the first occurrence. -/
def argmaxSq (w : List ℚ) : ℕ :=
  (w.foldl
    (fun (st : ℕ × ℕ × ℚ) x =>
      if x ^ 2 > st.2.2 then (st.1 + 1, st.1, x ^ 2) else (st.1 + 1, st.2.1, st.2.2))
    (0, 0, -1)).2.1

/-- The timeout result of `search` (lines 1060-1076): `iterations = 0`,
`error_message` set. -/
def grTimeout (N nq : ℕ) (tr : List Phase) : GroversResult :=
  { success := false, search_space_size := N, target_found := none, iterations := 0,
    qubits_used := nq, timeout_occurred := true, errored := true,
    trace := tr ++ [Phase.TIMEOUT] }

/-- The generic-exception result of `search` (lines 1077-1091); its handler
performs no `_log_step`. -/
def grError (N nq : ℕ) (tr : List Phase) : GroversResult :=
  { success := false, search_space_size := N, target_found := none, iterations := 0,
    qubits_used := nq, timeout_occurred := false, errored := true, trace := tr }

/-- `GroversAlgorithm.search` (lines 929-1091) with the iteration count
supplied as an argument (`search` computes it as `int(pi / 4 * sqrt(N))`,
wrapped below).  `num_qubits = min(search_space_bits, 20)`,
`N = 2 ** num_qubits`; a missing target defaults to the random draw. -/
def groversSearchAux (env : GroverEnv) (bits : ℕ) (targetOpt : Option ℕ)
    (numIter : ℕ) : GroversResult :=
  let nq := min bits 20
  let N := 2 ^ nq
  let target := targetOpt.getD env.randTarget
  let interval := max 1 (numIter / 8)
  let tr : List Phase := [.INIT, .CONFIG]
  if env.tchk 0 then grTimeout N nq tr
  else
    let tr := tr ++ [Phase.HADAMARD, Phase.SUPERPOSITION]
    let w0 : List ℚ := List.replicate N 1
    match grLoop env N target numIter interval numIter 1 w0 tr with
    | .error (.timeout, tr') => grTimeout N nq tr'
    | .error (.index, tr') => grError N nq tr'
    | .ok (w, _, tr') =>
      let measured := argmaxSq w
      let ok := measured = target
      { success := ok, search_space_size := N,
        target_found := if ok then some measured else none,
        iterations := numIter, qubits_used := nq, timeout_occurred := false,
        errored := false,
        trace := tr' ++ [Phase.MEASURE, Phase.RESULT,
          if ok then Phase.SUCCESS else Phase.PARTIAL] }

/-- `num_iterations = int(math.pi / 4 * math.sqrt(N))` (line 957) with
`N = 2 ** min(search_space_bits, 20)`: `int()` truncates, and the value is
nonnegative, so this is the floor. -/
noncomputable def grIter (bits : ℕ) : ℕ :=
  (⌊Real.pi / 4 * Real.sqrt (2 ^ min bits 20)⌋).toNat

/-- `GroversAlgorithm.search(search_space_bits, target)`. -/
noncomputable def groversSearch (env : GroverEnv) (bits : ℕ)
    (targetOpt : Option ℕ) : GroversResult :=
  groversSearchAux env bits targetOpt (grIter bits)

/-! ### PQC lattice attack (lines 1097-1256) -/

/-- `_log_step` phases of the fifteen-step lattice-attack narrative. -/
def latticeTraceFull : List Phase :=
  [.INIT, .LOAD_PARAMS, .BKZ_INIT, .QUANTUM_BKZ, .SVP_SEARCH, .BLOCK_SIZE,
   .LWE_ATTACK, .MLWE_ATTACK, .ENUM, .SIEVING, .COMPLEXITY, .QUANTUM_LIMIT,
   .FAIL, .SECURITY, .VERDICT]

/-- `{1: 128, 3: 192, 5: 256}.get(security_level, 192)` (line 1134). -/
def securityBits (level : ℤ) : ℕ :=
  if level = 1 then 128 else if level = 3 then 192 else if level = 5 then 256 else 192

/-- `int(security_bits * 0.95)`: the float product truncates to
`⌊security_bits * 19 / 20⌋` for every value `securityBits` produces
(the double closest to 0.95 is a hair below 19/20, and none of
128/192/256 times 19/20 is an integer, so the floor is unaffected). -/
def quantumBits (sb : ℕ) : ℕ := sb * 95 / 100

/-- `PQCAttackSimulator.attack_lattice(algorithm, security_level)`
(lines 1122-1256).  `tchk0` is the single `check_timeout` call (line 1149).
When it fires, the `TimeoutError` handler returns a timeout-tagged result.
Otherwise steps 2-15 run and the closing `return PQCAttackResult(...)`
(line 1224) evaluates the local `exec_time` (line 1231), which is assigned
only inside the `TimeoutError` handler — Python raises `NameError`, and no
handler catches it, so the exception escapes the run. -/
def attackLattice (algorithm : String) (security_level : ℤ) (tchk0 : Bool) :
    Except PyErr PQCAttackResult :=
  let sb := securityBits security_level
  if tchk0 then
    .ok { success := false, algorithm := algorithm, security_level := security_level,
          classical_security_bits := sb, quantum_security_bits := quantumBits sb,
          timeout_occurred := true, trace := [Phase.INIT] }
  else
    .error PyErr.nameError

/-! ### Shared progress log and GPU memory helpers -/

/-- One `append` to a `deque(maxlen = cap)` (`process_logs`, line 76): when
the deque is full the oldest entry is evicted from the left. -/
def dequeAppend {α : Type} (cap : ℕ) (l : List α) (e : α) : List α :=
  if l.length + 1 ≤ cap then l ++ [e] else (l ++ [e]).drop (l.length + 1 - cap)

/-- The log contents after appending the entries of `es` in order to an
empty bounded deque, as `log_process` (lines 115-131) does. -/
def processLogsAfter {α : Type} (cap : ℕ) (es : List α) : List α :=
  es.foldl (dequeAppend cap) []

/-- Module state read by `clear_gpu_memory`. -/
structure GpuEnv where
  /-- `CUPY_AVAILABLE`. -/
  cupyAvailable : Bool
  /-- `GPU_OPERATIONAL`. -/
  gpuOperational : Bool
  /-- whether the CuPy synchronize/free calls complete without raising. -/
  deviceClearOk : Bool

/-- `clear_gpu_memory()` (lines 271-293) acting on the pooled byte count:
with a backend present it synchronizes and frees the pools (returning
`False` and leaving the pool untouched if the CuPy calls raise); with no
backend it is a no-op returning `True`. -/
def clear_gpu_memory (env : GpuEnv) (pool : ℕ) : Bool × ℕ :=
  if env.cupyAvailable ∧ env.gpuOperational then
    if env.deviceClearOk then (true, 0) else (false, pool)
  else (true, pool)

/-- The source's conditions under which attempt `i` of `factor` extracts no
factor (lines 748, 772, 781, 799): the random base shares no factor with
`N`, and the period candidate is odd, or is even but both
`gcd(x - 1, N)` and `gcd(x + 1, N)` are trivial. -/
def attemptFindsNothing (env : ShorEnv) (N nq i : ℕ) : Prop :=
  let a := env.bases i
  let r := findOrder a N (2 ^ nq)
  let x := mod_exp a (r / 2) N
  Nat.gcd a N ≤ 1 ∧
  (r % 2 = 1 ∨
    (¬(1 < Int.gcd ((x : ℤ) - 1) (N : ℤ) ∧ Int.gcd ((x : ℤ) - 1) (N : ℤ) < N) ∧
     ¬(1 < Int.gcd ((x : ℤ) + 1) (N : ℤ) ∧ Int.gcd ((x : ℤ) + 1) (N : ℤ) < N)))

/-- A deterministic `ShorEnv` for concrete runs: every random base is `b`,
every timeout check answers `t`, FFT always succeeds, the demo draws are
`p` and `q`. -/
def constShorEnv (b : ℕ) (t : Bool) (p q : ℕ) : ShorEnv :=
  { useGpu := false, bases := fun _ => b, tchk := fun _ => t,
    fftAtt := fun _ _ => .ok, cpuFftOk := fun _ => true,
    reconvOk := fun _ => true, demoP := p, demoQ := q }

/-- A deterministic `GroverEnv`: random target `0`, every check answers `t`. -/
def constGroverEnv (t : Bool) : GroverEnv :=
  { useGpu := false, randTarget := 0, tchk := fun _ => t }

/-! ## Supporting lemmas -/

theorem dequeAppend_length {α : Type} (cap : ℕ) (l : List α) (e : α) :
    (dequeAppend cap l e).length = min (l.length + 1) cap := by
  unfold dequeAppend
  split
  · simp; omega
  · simp; omega

theorem foldl_dequeAppend {α : Type} (cap : ℕ) :
    ∀ (es l : List α), l.length ≤ cap →
      es.foldl (dequeAppend cap) l = (l ++ es).drop (l.length + es.length - cap) := by
  intro es
  induction es with
  | nil =>
    intro l hl
    simp [Nat.sub_eq_zero_of_le hl]
  | cons e es ih =>
    intro l hl
    have hlen : (dequeAppend cap l e).length = min (l.length + 1) cap :=
      dequeAppend_length cap l e
    rw [List.foldl_cons, ih (dequeAppend cap l e) (by simp [hlen]), hlen]
    by_cases hcase : l.length + 1 ≤ cap
    · have hda : dequeAppend cap l e = l ++ [e] := by
        unfold dequeAppend; rw [if_pos hcase]
      rw [hda]
      have h1 : (l ++ [e]) ++ es = l ++ e :: es := by simp
      rw [h1]
      congr 1
      simp only [List.length_cons]
      omega
    · have hda : dequeAppend cap l e = (l ++ [e]).drop (l.length + 1 - cap) := by
        unfold dequeAppend; rw [if_neg hcase]
      rw [hda]
      rw [← List.drop_append_of_le_length
          (by simp only [List.length_append, List.length_singleton]; omega),
        List.drop_drop]
      have h1 : (l ++ [e]) ++ es = l ++ e :: es := by simp
      rw [h1]
      congr 1
      simp only [List.length_cons]
      omega

theorem divisor_pair (p N : ℕ) (hdvd : p ∣ N) (h1 : 1 < p) (h2 : p < N) :
    p * (N / p) = N ∧ 1 < N / p ∧ N / p < N := by
  have h := Nat.mul_div_cancel' hdvd
  refine ⟨h, ?_, Nat.div_lt_self (by omega) h1⟩
  rcases Nat.eq_zero_or_pos (N / p) with h0 | hpos
  · rw [h0, Nat.mul_zero] at h; omega
  · rcases Nat.lt_or_ge (N / p) 2 with hlt2 | hge
    · have h1' : N / p = 1 := by omega
      rw [h1', Nat.mul_one] at h; omega
    · omega

theorem int_gcd_cast_good (A : ℤ) (N : ℕ)
    (h1 : 1 < Int.gcd A (N : ℤ)) (h2 : Int.gcd A (N : ℤ) < N) :
    Int.gcd A (N : ℤ) * (N / Int.gcd A (N : ℤ)) = N ∧
    1 < N / Int.gcd A (N : ℤ) ∧ N / Int.gcd A (N : ℤ) < N := by
  have hdz : ((Int.gcd A (N : ℤ) : ℕ) : ℤ) ∣ (N : ℤ) := Int.gcd_dvd_right
  have hdvd : Int.gcd A (N : ℤ) ∣ N := by exact_mod_cast hdz
  exact divisor_pair _ N hdvd h1 h2

theorem grLoop_ok (env : GroverEnv) (N target numIter interval : ℕ)
    (htk : ∀ j, env.tchk j = false) (ht : target < N) :
    ∀ fuel k w tr, ∃ w' k' tr',
      grLoop env N target numIter interval fuel k w tr = .ok (w', k', tr') := by
  intro fuel
  induction fuel with
  | zero => intro k w tr; exact ⟨w, k, tr, rfl⟩
  | succ fuel ih =>
    intro k w tr
    have h1 : ¬(N ≤ target) := by omega
    simp only [grLoop, htk k, Bool.false_eq_true, if_false, if_neg h1]
    exact ih _ _ _

theorem grIter_two : grIter 2 = 1 := by
  unfold grIter
  have hmin : min 2 20 = 2 := by norm_num
  rw [hmin]
  have hsq : Real.sqrt (2 ^ 2) = 2 := Real.sqrt_sq (by norm_num)
  rw [hsq]
  have h1 : Real.pi / 4 * 2 = Real.pi / 2 := by ring
  rw [h1]
  have hfloor : ⌊Real.pi / 2⌋ = 1 := by
    rw [Int.floor_eq_iff]
    constructor
    · push_cast
      linarith [Real.pi_gt_three]
    · push_cast
      linarith [Real.pi_lt_d2]
  rw [hfloor]
  rfl

/-! ## Claim theorems -/

/-- Claim C8: for every capacity `C` and every sequence of `N > C` appended
entries, the bounded process-log deque retains exactly the `C` most recently
appended entries, in insertion order, the oldest evicted first. -/
theorem process_log_retains_most_recent {α : Type} (C : ℕ) (es : List α)
    (h : C < es.length) :
    processLogsAfter C es = es.drop (es.length - C) ∧
    (processLogsAfter C es).length = C := by
  have hmain := foldl_dequeAppend C es [] (by simp)
  simp only [List.nil_append, List.length_nil, Nat.zero_add] at hmain
  unfold processLogsAfter
  refine ⟨hmain, ?_⟩
  rw [hmain, List.length_drop]
  omega

/-- Witness for C8 at capacity 2 and three appended entries. -/
theorem process_log_retains_most_recent_w :
    (2 < ([10, 20, 30] : List ℕ).length) ∧
    processLogsAfter 2 ([10, 20, 30] : List ℕ) = [20, 30] ∧
    (processLogsAfter 2 ([10, 20, 30] : List ℕ)).length = 2 := by
  have h := process_log_retains_most_recent 2 ([10, 20, 30] : List ℕ) (by decide)
  exact ⟨by decide, by rw [h.1]; rfl, h.2⟩

/-- Claim C9: with no accelerator backend present (CuPy unavailable or the
GPU not operational), `clear_gpu_memory` returns `true`, leaves the pool
unchanged, returns `true` again on a second call, and iterating it any
number of times leaves the pool unchanged. -/
theorem clear_gpu_memory_noop (env : GpuEnv) (pool : ℕ)
    (h : ¬(env.cupyAvailable = true ∧ env.gpuOperational = true)) :
    (clear_gpu_memory env pool).1 = true ∧
    (clear_gpu_memory env pool).2 = pool ∧
    (clear_gpu_memory env (clear_gpu_memory env pool).2).1 = true ∧
    ∀ n, (fun p => (clear_gpu_memory env p).2)^[n] pool = pool := by
  have hstep : ∀ p, clear_gpu_memory env p = (true, p) := by
    intro p
    unfold clear_gpu_memory
    rw [if_neg h]
  refine ⟨by rw [hstep], by rw [hstep], by rw [hstep, hstep], ?_⟩
  intro n
  induction n with
  | zero => rfl
  | succ n ih => rw [Function.iterate_succ_apply, hstep, ih]

/-- Witness for C9: CuPy absent, pool at 7 bytes. -/
theorem clear_gpu_memory_noop_w :
    (¬(GpuEnv.cupyAvailable ⟨false, true, true⟩ = true ∧
       GpuEnv.gpuOperational ⟨false, true, true⟩ = true)) ∧
    (clear_gpu_memory ⟨false, true, true⟩ 7).1 = true ∧
    (clear_gpu_memory ⟨false, true, true⟩ 7).2 = 7 ∧
    (clear_gpu_memory ⟨false, true, true⟩ (clear_gpu_memory ⟨false, true, true⟩ 7).2).1 = true := by
  have h := clear_gpu_memory_noop ⟨false, true, true⟩ 7 (by simp)
  exact ⟨by simp, h.1, h.2.1, h.2.2.1⟩

/-- Claim C1 (code_bug evidence): on its normal path — the single timeout
check not firing — `attack_lattice` evaluates the unassigned local
`exec_time` at its closing `return`, so a `NameError` escapes the run
instead of a structurally valid `PQCAttackResult`. -/
theorem attack_lattice_raises_nameerror :
    attackLattice "ML-KEM-768" 3 false = .error PyErr.nameError := rfl

/-- Claim C2 counterexample: at NIST level 1 the code reports
`quantum_security_bits = int(128 * 0.95) = 121` on the one path that
returns a result, whereas the claimed `round(128 * 0.95)` is `122`. -/
theorem attack_lattice_bits_not_round :
    (attackLattice "ML-KEM-768" 1 true).map PQCAttackResult.quantum_security_bits =
      Except.ok 121 ∧
    round ((128 : ℚ) * 95 / 100) = 122 := by
  constructor
  · rfl
  · rw [round_eq]; norm_num

/-- Claim C2 (amended): whenever `attack_lattice` returns a
`PQCAttackResult` (given the unassigned `exec_time`, only the timeout path
does), the result has `success = false` and `quantum_security_bits` equal
to the truncation `⌊classical_security_bits * 0.95⌋`: 121, 182, 243 for
NIST levels 1, 3, 5. -/
theorem attack_lattice_result_bits (algo : String) (level : ℤ) (t : Bool)
    (r : PQCAttackResult) (hlv : level = 1 ∨ level = 3 ∨ level = 5)
    (h : attackLattice algo level t = .ok r) :
    r.success = false ∧
    r.quantum_security_bits = r.classical_security_bits * 95 / 100 ∧
    (level = 1 → r.quantum_security_bits = 121) ∧
    (level = 3 → r.quantum_security_bits = 182) ∧
    (level = 5 → r.quantum_security_bits = 243) := by
  cases t with
  | false => simp [attackLattice] at h
  | true =>
    simp only [attackLattice, if_pos] at h
    rw [Except.ok.injEq] at h
    subst h
    rcases hlv with rfl | rfl | rfl <;>
      simp [securityBits, quantumBits]

/-- Witness for C2 at level 3 on the timeout path. -/
theorem attack_lattice_result_bits_w :
    ({ success := false, algorithm := "ML-KEM-768", security_level := 3,
       classical_security_bits := 192, quantum_security_bits := 182,
       timeout_occurred := true, trace := [Phase.INIT] } : PQCAttackResult).success = false ∧
    ({ success := false, algorithm := "ML-KEM-768", security_level := 3,
       classical_security_bits := 192, quantum_security_bits := 182,
       timeout_occurred := true, trace := [Phase.INIT] } : PQCAttackResult).quantum_security_bits = 182 := by
  have h := attack_lattice_result_bits "ML-KEM-768" 3 true
    { success := false, algorithm := "ML-KEM-768", security_level := 3,
      classical_security_bits := 192, quantum_security_bits := 182,
      timeout_occurred := true, trace := [Phase.INIT] }
    (Or.inr (Or.inl rfl)) rfl
  exact ⟨h.1, h.2.2.2.1 rfl⟩

/-- Claim C4 counterexample: a first transform attempt failing with a
non-CUFFT/CUDA signature makes the retry loop stop after that single
attempt, but the error does NOT propagate — the host (CPU) fallback runs
and the phase completes with a fallback transform. -/
theorem fft_noncuda_falls_back :
    (fftPhase true (fun _ => FftAttempt.failOther) true true).gpuAttemptCount = 1 ∧
    (fftPhase true (fun _ => FftAttempt.failOther) true true).outcome = FftOut.cpuFallback := by
  decide

/-- Claim C4 (amended): if attempt `k` of the transform retry loop fails
with an error unrelated to the device (after `k` CUDA-tagged failures), no
further transform attempts are made, and instead of propagating the error
the phase performs the host fallback (producing either a fallback
transform or, if that fails too, the last-resort approximated state). -/
theorem fft_noncuda_stops_and_falls_back (useGpu : Bool) (att : ℕ → FftAttempt)
    (c r : Bool) (k : ℕ) (hk : k < 3)
    (hpre : ∀ j, j < k → att j = .failCuda) (hcur : att k = .failOther) :
    (fftPhase useGpu att c r).gpuAttemptCount = k + 1 ∧
    ((fftPhase useGpu att c r).outcome = FftOut.cpuFallback ∨
     (fftPhase useGpu att c r).outcome = FftOut.approximated) := by
  have hr : fftRetry att = (k + 1, false) := by
    interval_cases k
    · simp [fftRetry, hcur]
    · simp [fftRetry, hpre 0 (by omega), hcur]
    · simp [fftRetry, hpre 0 (by omega), hpre 1 (by omega), hcur]
  unfold fftPhase
  rw [hr]
  cases c <;> cases useGpu <;> cases r <;> simp

/-- Witness for C4: second attempt fails non-CUDA after one CUDA failure. -/
theorem fft_noncuda_stops_and_falls_back_w :
    (fftPhase true (fun j => if j = 0 then FftAttempt.failCuda else FftAttempt.failOther) false true).gpuAttemptCount = 1 + 1 ∧
    ((fftPhase true (fun j => if j = 0 then FftAttempt.failCuda else FftAttempt.failOther) false true).outcome = FftOut.cpuFallback ∨
     (fftPhase true (fun j => if j = 0 then FftAttempt.failCuda else FftAttempt.failOther) false true).outcome = FftOut.approximated) :=
  fft_noncuda_stops_and_falls_back true
    (fun j => if j = 0 then FftAttempt.failCuda else FftAttempt.failOther) false true 1
    (by omega) (fun j hj => by interval_cases j; rfl) (by decide)

/-- Claim C5: for every even modulus, `factor` short-circuits in the
TRIVIAL phase with `success = true`, `factor_p = 2`, `factor_q = N / 2`,
and a trace showing that no attempt, period-search or transform phase
executed. -/
theorem shor_factor_even (env : ShorEnv) (N kb : ℕ) (h : N % 2 = 0) :
    shorsFactor env N kb =
      { success := true, modulus := N, factor_p := some 2, factor_q := some (N / 2),
        qubits_used := min (2 * Nat.log 2 (max N 2) + 3) 24,
        timeout_occurred := false, errored := false,
        trace := [Phase.INIT, Phase.CONFIG, Phase.TRIVIAL] } := by
  simp [shorsFactor, h]

/-- Witness for C5 at the even modulus 16. -/
theorem shor_factor_even_w :
    (16 % 2 = 0) ∧
    shorsFactor (constShorEnv 2 true 0 0) 16 2048 =
      { success := true, modulus := 16, factor_p := some 2, factor_q := some 8,
        qubits_used := 11, timeout_occurred := false, errored := false,
        trace := [Phase.INIT, Phase.CONFIG, Phase.TRIVIAL] } := by
  refine ⟨rfl, ?_⟩
  rw [shor_factor_even (constShorEnv 2 true 0 0) 16 2048 rfl]
  have hl : Nat.log 2 (max 16 2) = 4 :=
    Nat.log_eq_of_pow_le_of_lt_pow (by norm_num) (by norm_num)
  rw [hl]
  rfl

/-- Claim C3 counterexample: for `N = 4` (2 qubits) the code reports
`int(pi / 4 * sqrt(4)) = 1` amplification iterations, whereas the claimed
`round(pi / 4 * sqrt(4)) = round(1.5707...)` is `2`. -/
theorem grover_iterations_not_round :
    grIter 2 = 1 ∧ round (Real.pi / 4 * Real.sqrt (2 ^ min 2 20)) = 2 := by
  refine ⟨grIter_two, ?_⟩
  have hmin : min 2 20 = 2 := by norm_num
  rw [hmin]
  have hsq : Real.sqrt (2 ^ 2) = 2 := Real.sqrt_sq (by norm_num)
  rw [hsq]
  have h1 : Real.pi / 4 * 2 = Real.pi / 2 := by ring
  rw [h1, round_eq]
  rw [Int.floor_eq_iff]
  constructor
  · push_cast
    linarith [Real.pi_gt_three]
  · push_cast
    linarith [Real.pi_lt_d2]

/-- Claim C3 (amended): on every run in which no deadline check fires and
the target index is in range, `search` performs and reports
`⌊π/4·√N⌋` amplitude-amplification iterations (truncation, not rounding),
with `N = 2 ^ min(search_space_bits, 20)`. -/
theorem grover_iterations_floor (env : GroverEnv) (bits : ℕ) (tgt : Option ℕ)
    (htk : ∀ j, env.tchk j = false)
    (htgt : tgt.getD env.randTarget < 2 ^ min bits 20) :
    (groversSearch env bits tgt).iterations =
      (⌊Real.pi / 4 * Real.sqrt (2 ^ min bits 20)⌋).toNat := by
  unfold groversSearch groversSearchAux
  obtain ⟨w', k', tr', hE⟩ := grLoop_ok env (2 ^ min bits 20) (tgt.getD env.randTarget)
    (grIter bits) (max 1 (grIter bits / 8)) htk htgt (grIter bits) 1
    (List.replicate (2 ^ min bits 20) 1)
    ([Phase.INIT, Phase.CONFIG] ++ [Phase.HADAMARD, Phase.SUPERPOSITION])
  simp only [htk 0, Bool.false_eq_true, if_false, hE]
  rfl

/-- Witness for C3 at 2 qubits, target 0, no timeouts. -/
theorem grover_iterations_floor_w :
    (groversSearch (constGroverEnv false) 2 (some 0)).iterations =
      (⌊Real.pi / 4 * Real.sqrt (2 ^ min 2 20)⌋).toNat :=
  grover_iterations_floor (constGroverEnv false) 2 (some 0) (fun _ => rfl) (by simp)

/-- Claim C7 counterexample: with every deadline check answering "budget
exceeded", `factor` on the even modulus 6 still returns the trivial-factor
success result — it reaches no deadline check, so no timeout is reported. -/
theorem shor_even_ignores_budget :
    (shorsFactor (constShorEnv 2 true 0 0) 6 2048).timeout_occurred = false ∧
    (shorsFactor (constShorEnv 2 true 0 0) 6 2048).success = true := by
  exact ⟨rfl, rfl⟩

/-- Claim C7 (amended): when the first deadline check of a run fires (as a
budget of 0 makes it do), `search`, `attack_lattice`, and `factor` on an
odd modulus all terminate at that very first check with a timeout-tagged
result and no subsequent compute phase in the trace; `factor` on an even
modulus instead returns the trivial-factor result before any check. -/
theorem first_deadline_check_timeout
    (envG : GroverEnv) (envS : ShorEnv) (bits N kb : ℕ) (tgt : Option ℕ)
    (algo : String) (level : ℤ)
    (hG : envG.tchk 0 = true) (hS : envS.tchk 0 = true) (hN : N % 2 = 1) :
    groversSearch envG bits tgt =
      grTimeout (2 ^ min bits 20) (min bits 20) [Phase.INIT, Phase.CONFIG] ∧
    attackLattice algo level true =
      .ok { success := false, algorithm := algo, security_level := level,
            classical_security_bits := securityBits level,
            quantum_security_bits := quantumBits (securityBits level),
            timeout_occurred := true, trace := [Phase.INIT] } ∧
    shorsFactor envS N kb =
      shorTimeout N (min (2 * Nat.log 2 (max N 2) + 3) 24)
        [Phase.INIT, Phase.CONFIG] := by
  refine ⟨?_, rfl, ?_⟩
  · unfold groversSearch groversSearchAux
    simp only [hG, if_true]
  · have h2 : ¬(N % 2 = 0) := by omega
    unfold shorsFactor
    rw [if_neg h2, show (10 : ℕ) = 9 + 1 from rfl]
    unfold shorAttemptLoop
    simp only [hS, if_true]

/-- Witness for C7: all three runners with the first check firing. -/
theorem first_deadline_check_timeout_w :
    groversSearch (constGroverEnv true) 2 (some 0) =
      grTimeout (2 ^ min 2 20) (min 2 20) [Phase.INIT, Phase.CONFIG] ∧
    attackLattice "ML-KEM-768" 3 true =
      .ok { success := false, algorithm := "ML-KEM-768", security_level := 3,
            classical_security_bits := securityBits 3,
            quantum_security_bits := quantumBits (securityBits 3),
            timeout_occurred := true, trace := [Phase.INIT] } ∧
    shorsFactor (constShorEnv 2 true 0 0) 15 2048 =
      shorTimeout 15 (min (2 * Nat.log 2 (max 15 2) + 3) 24)
        [Phase.INIT, Phase.CONFIG] :=
  first_deadline_check_timeout (constGroverEnv true) (constShorEnv 2 true 0 0)
    2 15 2048 (some 0) "ML-KEM-768" 3 rfl rfl rfl

theorem shorLoop15_good (env : ShorEnv) (nq : ℕ)
    (hb : ∀ i, 2 ≤ env.bases i ∧ env.bases i ≤ 13) :
    ∀ rem i k ug tr p q,
      (shorAttemptLoop env 15 nq rem i k ug tr).success = true →
      (shorAttemptLoop env 15 nq rem i k ug tr).factor_p = some p →
      (shorAttemptLoop env 15 nq rem i k ug tr).factor_q = some q →
      p * q = 15 ∧ 1 < p ∧ p < 15 ∧ 1 < q ∧ q < 15 := by
  intro rem
  induction rem with
  | zero =>
    intro i k ug tr p q hs hp hq
    have hsq : Nat.sqrt 15 = 3 := (Nat.eq_sqrt.mpr (by norm_num)).symm
    have htd : trialDivisor 15 = some 3 := by
      unfold trialDivisor
      rw [hsq]
      rfl
    simp only [shorAttemptLoop, shorDemo, htd] at hs hp hq
    rw [if_pos (by norm_num : (15 : ℕ) < 10000000)] at hp hq
    simp only [shorSuccess, Option.some.injEq] at hp hq
    subst hp
    subst hq
    norm_num
  | succ rem ih =>
    intro i k ug tr p q
    simp only [shorAttemptLoop]
    split
    · intro hs; simp [shorTimeout] at hs
    · split
      · intro hs; simp [shorError] at hs
      · split
        · -- lucky GCD
          next hg =>
          intro hs hp hq
          simp only [shorSuccess, Option.some.injEq] at hp hq
          subst hp
          subst hq
          have hdvd : Nat.gcd (env.bases i) 15 ∣ 15 := Nat.gcd_dvd_right _ _
          have hle : Nat.gcd (env.bases i) 15 ≤ env.bases i :=
            Nat.le_of_dvd (by have := (hb i).1; omega) (Nat.gcd_dvd_left _ _)
          have hlt : Nat.gcd (env.bases i) 15 < 15 := by
            have := (hb i).2; omega
          have hgood := divisor_pair _ 15 hdvd hg hlt
          exact ⟨hgood.1, hg, hlt, hgood.2.1, hgood.2.2⟩
        · -- period-finding path
          split
          · intro hs; simp [shorTimeout] at hs
          · split
            · -- even period
              split
              · -- factor from gcd(x - 1, N)
                next hP =>
                intro hs hp hq
                simp only [shorSuccess, Option.some.injEq] at hp hq
                subst hp
                subst hq
                have hgood := int_gcd_cast_good _ 15 hP.1 hP.2
                exact ⟨hgood.1, hP.1, hP.2, hgood.2.1, hgood.2.2⟩
              · split
                · -- factor from gcd(x + 1, N)
                  next hQ =>
                  intro hs hp hq
                  simp only [shorSuccess, Option.some.injEq] at hp hq
                  subst hp
                  subst hq
                  have hgood := int_gcd_cast_good _ 15 hQ.1 hQ.2
                  exact ⟨hgood.1, hQ.1, hQ.2, hgood.2.1, hgood.2.2⟩
                · exact ih _ _ _ _ p q
            · exact ih _ _ _ _ p q

/-- Claim C6: for modulus 15, over every choice of the random bases (which
`np.random.randint(2, 14)` draws from `[2, 13]`) and every timeout/FFT
behaviour, whenever `factor` reports `success = true` the returned factors
multiply to 15 and are both strictly between 1 and 15. -/
theorem shor_factor15_good (env : ShorEnv) (kb : ℕ)
    (hb : ∀ i, 2 ≤ env.bases i ∧ env.bases i ≤ 13) (p q : ℕ)
    (hs : (shorsFactor env 15 kb).success = true)
    (hp : (shorsFactor env 15 kb).factor_p = some p)
    (hq : (shorsFactor env 15 kb).factor_q = some q) :
    p * q = 15 ∧ 1 < p ∧ p < 15 ∧ 1 < q ∧ q < 15 := by
  have h15 : ¬((15 : ℕ) % 2 = 0) := by norm_num
  simp only [shorsFactor, if_neg h15] at hs hp hq
  exact shorLoop15_good env _ hb 10 0 0 env.useGpu _ p q hs hp hq

/-- Witness for C6: base 3 everywhere, no timeouts — the run succeeds with
the factors 3 and 5. -/
theorem shor_factor15_good_w :
    (shorsFactor (constShorEnv 3 false 0 0) 15 2048).success = true ∧
    (shorsFactor (constShorEnv 3 false 0 0) 15 2048).factor_p = some 3 ∧
    (shorsFactor (constShorEnv 3 false 0 0) 15 2048).factor_q = some 5 ∧
    (3 * 5 = 15 ∧ 1 < 3 ∧ 3 < 15 ∧ 1 < 5 ∧ 5 < 15) :=
  ⟨by decide, by decide, by decide,
    shor_factor15_good (constShorEnv 3 false 0 0) 2048
      (fun _ => ⟨(by decide : (2 : ℕ) ≤ 3), (by decide : (3 : ℕ) ≤ 13)⟩) 3 5
      (by decide) (by decide) (by decide)⟩

theorem findOrderAux_stop (a N cap fuel val r : ℕ) (h : ¬(val ≠ 1 ∧ r < cap)) :
    findOrderAux a N cap fuel val r = r := by
  cases fuel with
  | zero => rfl
  | succ fuel => simp [findOrderAux, h]

theorem findOrderAux_step (a N cap fuel val r : ℕ) (h : val ≠ 1 ∧ r < cap) :
    findOrderAux a N cap (fuel + 1) val r = findOrderAux a N cap fuel (val * a % N) (r + 1) := by
  simp [findOrderAux, h]

theorem findOrder_pow_M31 :
    ∀ fuel j, 1 ≤ j → j ≤ 31 → 31 - j < fuel →
      findOrderAux 2 2147483647 (2 ^ 24) fuel (2 ^ j % 2147483647) j = 31 := by
  intro fuel
  induction fuel with
  | zero => intro j _ _ h3; omega
  | succ fuel ih =>
    intro j h1 h2 _
    by_cases hj : j = 31
    · subst hj
      have hv : (2 : ℕ) ^ 31 % 2147483647 = 1 := by norm_num
      rw [hv]
      exact findOrderAux_stop _ _ _ _ _ _ (by simp)
    · have hvlt : (2 : ℕ) ^ j < 2147483647 := by
        have h30 : (2 : ℕ) ^ j ≤ 2 ^ 30 := Nat.pow_le_pow_right (by norm_num) (by omega)
        have h30v : (2 : ℕ) ^ 30 < 2147483647 := by norm_num
        omega
      have hv : (2 : ℕ) ^ j % 2147483647 = 2 ^ j := Nat.mod_eq_of_lt hvlt
      have hne : (2 : ℕ) ^ j ≠ 1 := by
        have h1' : (2 : ℕ) ≤ 2 ^ j := by
          have := Nat.pow_le_pow_right (show 1 ≤ 2 by norm_num) h1
          simpa using this
        omega
      have hcap : j < 2 ^ 24 := by
        have h24 : (2 : ℕ) ^ 24 = 16777216 := by norm_num
        omega
      rw [hv, findOrderAux_step _ _ _ _ _ _ ⟨hne, hcap⟩]
      have hm : (2 : ℕ) ^ j * 2 % 2147483647 = 2 ^ (j + 1) % 2147483647 := by
        rw [pow_succ]
      rw [hm]
      exact ih (j + 1) (by omega) (by omega) (by omega)

theorem findOrder_two_M31 : findOrder 2 2147483647 (2 ^ 24) = 31 := by
  unfold findOrder
  have h2 : (2 : ℕ) % 2147483647 = 2 ^ 1 % 2147483647 := by norm_num
  rw [h2]
  exact findOrder_pow_M31 (2 ^ 24) 1 (by norm_num) (by norm_num) (by norm_num)

theorem qpf_ok (env : ShorEnv) (i : ℕ) (ug : Bool) (a N nq k : ℕ)
    (htk : ∀ j, env.tchk j = false) :
    qpf env i ug a N nq k =
      (.ok (findOrder a N (2 ^ nq),
        (fftPhase ug (env.fftAtt i) (env.cpuFftOk i) (env.reconvOk i)).useGpuAfter),
       k + 3,
       [Phase.QUANTUM_REGISTER, .GPU_MEMORY, .HADAMARD_GATE]
         ++ [Phase.ORACLE_INIT, .ORACLE, .PERIOD_SEARCH]
         ++ List.replicate (findOrder a N (2 ^ nq) / 2000) Phase.PERIOD_SEARCH
         ++ [Phase.QFT_PREPARE, .QFT_EXECUTE, .POST_PROCESS, .VERIFY, .COMPLETE]) := by
  simp [qpf, htk k, htk (k + 1), htk (k + 2)]

theorem shorLoopAllFail (env : ShorEnv) (N nq : ℕ)
    (htk : ∀ j, env.tchk j = false) (hbig : 10000000 ≤ N) :
    ∀ rem i k ug tr,
      (∀ j, j < rem → attemptFindsNothing env N nq (i + j)) →
      (shorAttemptLoop env N nq rem i k ug tr).success = true ∧
      (shorAttemptLoop env N nq rem i k ug tr).factor_p = some env.demoP ∧
      (shorAttemptLoop env N nq rem i k ug tr).factor_q = some env.demoQ := by
  intro rem
  induction rem with
  | zero =>
    intro i k ug tr _
    have hlt : ¬(N < 10000000) := by omega
    simp only [shorAttemptLoop, shorDemo, if_neg hlt]
    exact ⟨rfl, rfl, rfl⟩
  | succ rem ih =>
    intro i k ug tr hfail
    have hf0 := hfail 0 (by omega)
    rw [Nat.add_zero] at hf0
    simp only [attemptFindsNothing] at hf0
    obtain ⟨hg, hrest⟩ := hf0
    have hshift : ∀ j, j < rem → attemptFindsNothing env N nq (i + 1 + j) := by
      intro j hj
      have := hfail (j + 1) (by omega)
      rwa [show i + (j + 1) = i + 1 + j by omega] at this
    simp only [shorAttemptLoop, htk k, Bool.false_eq_true, if_false]
    have hmin : ¬(min (N - 1) 10000 ≤ 2) := by omega
    rw [if_neg hmin]
    have hglt : ¬(1 < Nat.gcd (env.bases i) N) := by omega
    rw [if_neg hglt, qpf_ok env i ug (env.bases i) N nq (k + 1) htk]
    dsimp only
    by_cases hr : findOrder (env.bases i) N (2 ^ nq) % 2 = 0
    · rcases hrest with hodd | ⟨hP, hQ⟩
      · omega
      · rw [if_pos hr, if_neg hP, if_neg hQ]
        exact ih (i + 1) _ _ _ hshift
    · rw [if_neg hr]
      exact ih (i + 1) _ _ _ hshift

/-- Claim C10: for every odd modulus at least 10,000,000 that reaches the
demo-completion phase (every attempt's base shares no factor with `N` and
yields no usable period), `factor` reports `success = true` with the two
random demo draws as factors — so the success flag does not imply
`factor_p * factor_q = N`. -/
theorem shor_demo_random_factors (env : ShorEnv) (N kb : ℕ)
    (hodd : N % 2 = 1) (hbig : 10000000 ≤ N)
    (htk : ∀ j, env.tchk j = false)
    (hfail : ∀ i, i < 10 → attemptFindsNothing env N 24 i) :
    (shorsFactor env N kb).success = true ∧
    (shorsFactor env N kb).factor_p = some env.demoP ∧
    (shorsFactor env N kb).factor_q = some env.demoQ := by
  have hnq : min (2 * Nat.log 2 (max N 2) + 3) 24 = 24 := by
    have hmax : max N 2 = N := by omega
    rw [hmax]
    have hpow : (2 : ℕ) ^ 11 ≤ N := by
      have : (2 : ℕ) ^ 11 = 2048 := by norm_num
      omega
    have hlog : 11 ≤ Nat.log 2 N :=
      (Nat.pow_le_iff_le_log (by norm_num) (by omega)).mp hpow
    omega
  have h2 : ¬(N % 2 = 0) := by omega
  simp only [shorsFactor, if_neg h2, hnq]
  exact shorLoopAllFail env N 24 htk hbig 10 0 0 env.useGpu _
    (fun j hj => by
      have := hfail j (by omega)
      rwa [Nat.zero_add])

/-- Witness for C10: the prime modulus 2147483647 with every base drawn as
2 (order 31, odd) exhausts all ten attempts and returns the two demo draws
`2 ^ 1022`, whose product is not the modulus. -/
theorem shor_demo_random_factors_w :
    (shorsFactor (constShorEnv 2 false (2 ^ 1022) (2 ^ 1022)) 2147483647 2048).success = true ∧
    (shorsFactor (constShorEnv 2 false (2 ^ 1022) (2 ^ 1022)) 2147483647 2048).factor_p = some (2 ^ 1022) ∧
    (shorsFactor (constShorEnv 2 false (2 ^ 1022) (2 ^ 1022)) 2147483647 2048).factor_q = some (2 ^ 1022) ∧
    2 ^ 1022 * 2 ^ 1022 ≠ 2147483647 := by
  have h := shor_demo_random_factors (constShorEnv 2 false (2 ^ 1022) (2 ^ 1022))
    2147483647 2048 (by norm_num) (by norm_num) (fun _ => rfl)
    (fun i _ => by
      simp only [attemptFindsNothing, constShorEnv]
      exact ⟨by decide, Or.inl (by rw [findOrder_two_M31])⟩)
  refine ⟨h.1, h.2.1, h.2.2, ?_⟩
  have hpow : (2 : ℕ) ^ 1022 * 2 ^ 1022 = 2 ^ 2044 := by rw [← pow_add]
  rw [hpow]
  have hle : (2 : ℕ) ^ 31 ≤ 2 ^ 2044 := Nat.pow_le_pow_right (by norm_num) (by norm_num)
  have h31 : (2147483647 : ℕ) < 2 ^ 31 := by norm_num
  omega

end QuantumService
